import Mathlib

/-!
# Verification of the `journalcloud` log-shipping agent

A shallow embedding of `src/main.rs`: a single-threaded agent that drains the
local systemd journal in batches, uploads each batch to a CloudWatch Logs
stream, and persists the journal cursor to a local file only after the upload
has been acknowledged.

External collaborators (the systemd journal library, the filesystem, and the
CloudWatch client) are embedded as explicit state or as environment-supplied
responses; every function of the program itself is translated directly from
the Rust source.
-/

namespace Journalcloud

/-- A systemd `JournalRecord`: an ordered mapping of field names to values
(the Rust type is a `BTreeMap<String, String>`; we keep the field order the
iterator would yield). -/
abbrev JournalRecord := List (String × String)

/-- Rust `Config` from `src/main.rs` (the AWS region selector is irrelevant to the
embedded behaviour and omitted; `sleep_time` is in milliseconds). -/
structure Config where
  cursor_file : String
  batch_size : Nat
  sleep_time : Nat
  log_group_name : String
  log_stream_name : String
deriving Repr, DecidableEq

/-- The journal handle: the retained records of the journal together with the
current read position.  The systemd journal is an external collaborator; the
spec describes it as a sequential, cursor-addressable record store, which this
state realizes. -/
structure Journal where
  records : List JournalRecord
  pos : Nat
deriving Repr, DecidableEq

/-- Translation of `sd_journal_next` / `Journal::next_record`: yield the record at the
current position and advance past it, or yield nothing when the journal is
exhausted (position unchanged). -/
def Journal.next_record (j : Journal) : Option JournalRecord × Journal :=
  match j.records.get? j.pos with
  | none => (none, j)
  | some r => (some r, { j with pos := j.pos + 1 })

/-- Modelled from the spec: cursor tokens of the journal library are opaque
strings that encode the reader's position ("a query for current position as an
opaque token").  The program never inspects them, so the model may pick any
injective encoding with a left inverse; we encode position `p` as `p + 1`
repetitions of `'c'` (always non-empty, as real systemd cursors are). -/
def encodeCursor (p : Nat) : String :=
  String.mk (List.replicate (p + 1) 'c')

/-- Decode a cursor token back to the position it encodes (the journal
library's side of `sd_journal_seek_cursor`). -/
def decodeCursor (s : String) : Nat :=
  s.length - 1

/-- Model of `Journal::cursor`: the opaque token for the current read position. -/
def Journal.cursor (j : Journal) : String :=
  encodeCursor j.pos

/-- The `JournalSeek` targets used by the program (`Head` and `Cursor`). -/
inductive JournalSeek where
  | Head : JournalSeek
  | Cursor (cursor : String) : JournalSeek
deriving Repr, DecidableEq

/-- Model of `Journal::seek`: `Head` positions the reader at the earliest retained
record; `Cursor` restores the position encoded by the token. -/
def Journal.seek (j : Journal) : JournalSeek → Journal
  | .Head => { j with pos := 0 }
  | .Cursor s => { j with pos := decodeCursor s }

/-- Rust `LogBatch` from `src/main.rs`: the records read in one cycle plus the
journal cursor taken immediately after the last of them was consumed. -/
structure LogBatch where
  cursor : String
  logs : List JournalRecord
deriving Repr, DecidableEq

/-- The `for _i in 0..batch_size` loop inside `Runtime::read_batch`: consume
up to `n` records, stopping early when the journal is exhausted. -/
def readLoop (j : Journal) : Nat → List JournalRecord × Journal
  | 0 => ([], j)
  | n + 1 =>
    match j.next_record with
    | (none, j') => ([], j')
    | (some r, j') =>
      let (rs, j'') := readLoop j' n
      (r :: rs, j'')

/-- Translation of `Runtime::read_batch`: read up to `batch_size` records; return `none` when
zero records were consumed, otherwise the batch together with the journal's
cursor at the position after the last consumed record. -/
def read_batch (batch_size : Nat) (j : Journal) : Option LogBatch × Journal :=
  let (logs, j') := readLoop j batch_size
  if logs.length = 0 then
    (none, j')
  else
    (some { logs := logs, cursor := j'.cursor }, j')

/-- The cursor file's state: `none` when the file does not exist, otherwise
its (UTF-8) contents. -/
abbrev CursorFile := Option String

/-- Model of `fs::File::create`: create the file, truncating any previous contents. -/
def file_create (_fs : CursorFile) : CursorFile :=
  some ""

/-- Model of `Write::write_all` on a freshly positioned handle: append the bytes to the
file's current contents. -/
def write_all (fs : CursorFile) (data : String) : CursorFile :=
  match fs with
  | none => some data
  | some c => some (c ++ data)

/-- Translation of `Runtime::persist_cursor`: `File::create` (truncate) then `write_all` of
the batch's cursor token. -/
def persist_cursor (fs : CursorFile) (batch : LogBatch) : CursorFile :=
  write_all (file_create fs) batch.cursor

/-- Translation of `journal_seek_target` from `src/main.rs`: a missing file or an empty file
means seek to `Head`; any non-empty contents are used verbatim as the cursor
token. -/
def journal_seek_target (file : CursorFile) : JournalSeek :=
  match file with
  | none => JournalSeek.Head
  | some cursor =>
    if cursor.length = 0 then JournalSeek.Head
    else JournalSeek.Cursor cursor

/-- Translation of `init_journal`: open the journal (all files, read position at the start)
and seek to the target derived from the cursor file. -/
def init_journal (records : List JournalRecord) (file : CursorFile) : Journal :=
  Journal.seek { records := records, pos := 0 } (journal_seek_target file)

/-! ## The CloudWatch Logs wire model -/

/-- Modelled from the spec: the JSON escaping of one character inside a JSON
string, as performed by the external `serde_json` serializer. -/
def jsonEscapeChar (c : Char) : String :=
  if c = '"' then "\\\""
  else if c = '\\' then "\\\\"
  else if c = '\n' then "\\n"
  else if c = '\t' then "\\t"
  else if c = '\r' then "\\r"
  else String.mk [c]

/-- Modelled from the spec: a JSON string literal for `s`. -/
def jsonStringLit (s : String) : String :=
  "\"" ++ String.join (s.data.map jsonEscapeChar) ++ "\""

/-- Modelled from the spec ("per-record wire payload is the JSON serialization
of the structured record"): `serde_json::to_string` of a `JournalRecord`, a
JSON object of its field mapping. -/
def json_to_string (r : JournalRecord) : String :=
  "\x7b" ++
    String.intercalate ","
      (r.map (fun kv => jsonStringLit kv.1 ++ ":" ++ jsonStringLit kv.2)) ++
  "\x7d"

/-- Rust `rusoto_logs::InputLogEvent`. -/
structure InputLogEvent where
  message : String
  timestamp : Int
deriving Repr, DecidableEq

/-- Rust `rusoto_logs::PutLogEventsRequest` (the fields the program populates). -/
structure PutLogEventsRequest where
  log_group_name : String
  log_stream_name : String
  sequence_token : Option String
  log_events : List InputLogEvent
deriving Repr, DecidableEq

/-- The request body built inside `Runtime::upload_logs`: per record, the JSON
serialization as the message and the wall-clock milliseconds `now` (read by
`current_ms()` during upload) as the timestamp; the whole batch travels in one
request carrying the currently held sequence token. -/
def buildPutRequest (cfg : Config) (aws_cursor : Option String) (now : Int)
    (batch : LogBatch) : PutLogEventsRequest :=
  { log_group_name := cfg.log_group_name
    log_stream_name := cfg.log_stream_name
    sequence_token := aws_cursor
    log_events :=
      batch.logs.map (fun log_line =>
        { message := json_to_string log_line, timestamp := now }) }

/-- One stream description from a `DescribeLogStreams` response (the only
field the program reads is the upload sequence token; the name is carried to
state what the program does *not* read). -/
structure LogStream where
  log_stream_name : String
  upload_sequence_token : Option String
deriving Repr, DecidableEq

/-- Rust `rusoto_logs::DescribeLogStreamsRequest` (the fields the program sets;
the remaining options are left `None` by the source). -/
structure DescribeLogStreamsRequest where
  log_group_name : String
  log_stream_name_prefix : Option String
deriving Repr, DecidableEq

/-- Rust `rusoto_logs::CreateLogStreamRequest`. -/
structure CreateLogStreamRequest where
  log_group_name : String
  log_stream_name : String
deriving Repr, DecidableEq

/-- The CloudWatch API calls `create_or_find_log_stream` can issue. -/
inductive ApiCall where
  | describeLogStreams (req : DescribeLogStreamsRequest) : ApiCall
  | createLogStream (req : CreateLogStreamRequest) : ApiCall
deriving Repr, DecidableEq

/-- Translation of `create_or_find_log_stream` from `src/main.rs`.  `resp` is the
`log_streams` field of the (successfully unwrapped) `DescribeLogStreams`
response.  Returns the initial sequence token together with the calls issued:
if the response lists at least one stream, the first stream's
`upload_sequence_token` is returned; otherwise the stream is created and
`None` is returned. -/
def create_or_find_log_stream (resp : Option (List LogStream)) (config : Config) :
    Option String × List ApiCall :=
  let descReq : DescribeLogStreamsRequest :=
    { log_group_name := config.log_group_name
      log_stream_name_prefix := some config.log_stream_name }
  let createReq : CreateLogStreamRequest :=
    { log_group_name := config.log_group_name
      log_stream_name := config.log_stream_name }
  match resp with
  | some streams =>
    match streams with
    | first :: _ =>
      (first.upload_sequence_token, [ApiCall.describeLogStreams descReq])
    | [] =>
      (none, [ApiCall.describeLogStreams descReq, ApiCall.createLogStream createReq])
  | none =>
    (none, [ApiCall.describeLogStreams descReq, ApiCall.createLogStream createReq])

/-! ## The shipping loop as a trace-producing step system

`main`'s loop is embedded as a function producing the sequence of observable
events (journal reads, uploads, cursor-file writes, sleeps).  Fallible
external calls (`next_record().unwrap()`, `put_log_events(..).unwrap()`,
`File::create`/`write_all` `.unwrap()`) take their outcomes from an
environment; an `Err` outcome is the panic of the corresponding `unwrap`,
which aborts the process, so the trace ends there. -/

/-- Outcome of one `put_log_events` call: success with the (optional)
`next_sequence_token` from the response, or a failure (whose `unwrap`
panics). -/
inductive UploadOutcome where
  | ok (next_sequence_token : Option String) : UploadOutcome
  | err : UploadOutcome
deriving Repr, DecidableEq

/-- The environment of external outcomes: whether the `n`-th iteration's
journal read fails, the outcome of the `k`-th upload, whether the `k`-th
cursor-file write fails, and the wall clock (milliseconds since the epoch) as
a function of the global event tick. -/
structure Env where
  readFails : Nat → Bool
  uploadOutcomes : Nat → UploadOutcome
  writeFails : Nat → Bool
  clock : Nat → Int

/-- The mutable state of `main`'s loop: the `Runtime` fields that change
(journal position, held AWS sequence token, cursor file) plus the counters
indexing the environment (iteration, upload and write counts, event tick). -/
structure LoopState where
  journal : Journal
  aws_cursor : Option String
  cursorFile : CursorFile
  iter : Nat
  nup : Nat
  nwr : Nat
  time : Nat
deriving Repr, DecidableEq

/-- An observable event of the shipping loop.  Each event carries the global
tick at which it happened. -/
inductive Event where
  | readEv (tick : Nat) (result : Option LogBatch) : Event
  | readFailEv (tick : Nat) : Event
  | uploadEv (tick : Nat) (req : PutLogEventsRequest) (batch : LogBatch)
      (outcome : UploadOutcome) : Event
  | writeEv (tick : Nat) (contents : String) : Event
  | writeFailEv (tick : Nat) : Event
  | sleepEv (tick : Nat) (millis : Nat) : Event
deriving Repr, DecidableEq

/-- Trace of `n` iterations of `main`'s loop, as the list of observable events.  Each
iteration: `read_batch`; on `None`, sleep for the poll interval; on
`Some(batch)`, `upload_logs` (building the request with the held token and
upload-time clock, then replacing the token by the response's
`next_sequence_token`) and, on success, `persist_cursor`.  A failing external
call panics the process: no further events. -/
def run (cfg : Config) (env : Env) : Nat → LoopState → List Event
  | 0, _ => []
  | n + 1, s =>
    if env.readFails s.iter then
      [Event.readFailEv s.time]
    else
      match read_batch cfg.batch_size s.journal with
      | (none, j') =>
        Event.readEv s.time none ::
        Event.sleepEv (s.time + 1) cfg.sleep_time ::
        run cfg env n
          { s with journal := j', iter := s.iter + 1, time := s.time + 2 }
      | (some b, j') =>
        let req := buildPutRequest cfg s.aws_cursor (env.clock (s.time + 1)) b
        Event.readEv s.time (some b) ::
        Event.uploadEv (s.time + 1) req b (env.uploadOutcomes s.nup) ::
        match env.uploadOutcomes s.nup with
        | UploadOutcome.err => []
        | UploadOutcome.ok tk =>
          if env.writeFails s.nwr then
            [Event.writeFailEv (s.time + 2)]
          else
            Event.writeEv (s.time + 2) b.cursor ::
            run cfg env n
              { journal := j'
                aws_cursor := tk
                cursorFile := persist_cursor s.cursorFile b
                iter := s.iter + 1
                nup := s.nup + 1
                nwr := s.nwr + 1
                time := s.time + 3 }

/-- Translation of `init_runtime`: the loop state after initialization — journal seeked
according to the cursor file, AWS sequence token resolved by
`create_or_find_log_stream`, all counters at zero.  This runs to completion
before the first loop iteration. -/
def init_runtime (cfg : Config) (records : List JournalRecord)
    (file : CursorFile) (resp : Option (List LogStream)) : LoopState :=
  { journal := init_journal records file
    aws_cursor := (create_or_find_log_stream resp cfg).1
    cursorFile := file
    iter := 0
    nup := 0
    nwr := 0
    time := 0 }

/-- The records a journal reader can still deliver from its position onwards. -/
def deliveredFrom (j : Journal) : List JournalRecord :=
  j.records.drop j.pos

/-- Project a trace onto its uploads: the sequence token each upload carried
and its outcome, in order. -/
def uploadsOf : List Event → List (Option String × UploadOutcome)
  | [] => []
  | Event.uploadEv _ req _ out :: rest => (req.sequence_token, out) :: uploadsOf rest
  | _ :: rest => uploadsOf rest

/-- The token-threading discipline: the first upload carries `tok`, and every
later upload carries the `next_sequence_token` returned by the immediately
preceding successful upload (a failed upload is the last one). -/
def tokenChain : Option String → List (Option String × UploadOutcome) → Prop
  | _, [] => True
  | tok, (sent, UploadOutcome.ok t) :: rest => sent = tok ∧ tokenChain t rest
  | tok, (sent, UploadOutcome.err) :: rest => sent = tok ∧ rest = []

/-- A trace event that corresponds to the panic of an `unwrap` on a failed
external call. -/
def Event.isFailure : Event → Bool
  | Event.readFailEv _ => true
  | Event.writeFailEv _ => true
  | Event.uploadEv _ _ _ UploadOutcome.err => true
  | _ => false

/-- A trace is empty or begins with a journal read (every loop iteration
starts by calling `read_batch`). -/
def startsWithRead : List Event → Prop
  | [] => True
  | Event.readEv _ _ :: _ => True
  | Event.readFailEv _ :: _ => True
  | _ => False

/-! ## Concrete inputs used by the evaluation witnesses -/

/-- A sample journal record. -/
def recA : JournalRecord := [("MESSAGE", "alpha")]

/-- A sample journal record. -/
def recB : JournalRecord := [("MESSAGE", "beta")]

/-- A sample journal record. -/
def recC : JournalRecord := [("MESSAGE", "gamma")]

/-- A sample configuration (batch size 2). -/
def cfg0 : Config :=
  { cursor_file := "/var/lib/cloudjournal/current-cursor"
    batch_size := 2
    sleep_time := 500
    log_group_name := "group"
    log_stream_name := "stream" }

/-- A sample journal holding three records, positioned at the start. -/
def j0 : Journal := { records := [recA, recB, recC], pos := 0 }

/-- The batch the first `read_batch` on `j0` yields under `cfg0`. -/
def batch0 : LogBatch := { cursor := encodeCursor 2, logs := [recA, recB] }

/-- A sample stream listed by `DescribeLogStreams`: its name extends the
configured stream name `"stream"` and is not an exact match. -/
def stream0 : LogStream :=
  { log_stream_name := "stream-extra", upload_sequence_token := some "seq7" }

/-- An environment in which every external call succeeds. -/
def env0 : Env :=
  { readFails := fun _ => false
    uploadOutcomes := fun _ => UploadOutcome.ok (some "tok1")
    writeFails := fun _ => false
    clock := fun t => Int.ofNat t }

/-- An environment in which every upload fails. -/
def envUpFail : Env :=
  { readFails := fun _ => false
    uploadOutcomes := fun _ => UploadOutcome.err
    writeFails := fun _ => false
    clock := fun t => Int.ofNat t }

/-- The initial loop state over `j0` with no held token and no cursor file. -/
def st0 : LoopState :=
  { journal := j0
    aws_cursor := none
    cursorFile := none
    iter := 0
    nup := 0
    nwr := 0
    time := 0 }

/-! ## Lemmas about the journal reader -/

theorem decodeCursor_encodeCursor (p : Nat) : decodeCursor (encodeCursor p) = p := by
  simp [decodeCursor, encodeCursor, String.length]

theorem readLoop_spec (n : Nat) (j : Journal) :
    readLoop j n = ((j.records.drop j.pos).take n,
      { j with pos := j.pos + min n (j.records.length - j.pos) }) := by
  induction n generalizing j with
  | zero => simp [readLoop]
  | succ n ih =>
    cases hg : j.records.get? j.pos with
    | none =>
      have hg' : j.records[j.pos]? = none := by
        rw [← List.get?_eq_getElem?]; exact hg
      have hle : j.records.length ≤ j.pos := List.get?_eq_none.mp hg
      have hd : j.records.drop j.pos = [] := List.drop_eq_nil_of_le hle
      have hm : min (n + 1) (j.records.length - j.pos) = 0 := by omega
      simp [readLoop, Journal.next_record, hg', hd, hm]
    | some r =>
      have hg' : j.records[j.pos]? = some r := by
        rw [← List.get?_eq_getElem?]; exact hg
      have hlt : j.pos < j.records.length := by
        rcases List.getElem?_eq_some.mp hg' with ⟨h, _⟩
        exact h
      have hr : j.records[j.pos] = r := by
        rcases List.getElem?_eq_some.mp hg' with ⟨_, h⟩
        exact h
      have hdrop : j.records.drop j.pos = r :: j.records.drop (j.pos + 1) := by
        rw [List.drop_eq_getElem_cons hlt, hr]
      have harith : j.pos + 1 + min n (j.records.length - (j.pos + 1)) =
          j.pos + min (n + 1) (j.records.length - j.pos) := by omega
      simp [readLoop, Journal.next_record, hg', ih, hdrop, harith]

theorem read_batch_eq (batch_size : Nat) (j : Journal) :
    read_batch batch_size j =
      ((if min batch_size (j.records.length - j.pos) = 0 then none
        else some { logs := (j.records.drop j.pos).take batch_size
                    cursor := encodeCursor
                      (j.pos + min batch_size (j.records.length - j.pos)) }),
       { j with pos := j.pos + min batch_size (j.records.length - j.pos) }) := by
  have hlen : ((j.records.drop j.pos).take batch_size).length =
      min batch_size (j.records.length - j.pos) := by
    simp [List.length_take, List.length_drop]
  rw [read_batch, readLoop_spec]
  simp only [Journal.cursor, hlen]
  split
  · simp_all
  · simp_all

/-! ## Claims about the journal reader and the cursor store -/

/-- C2, counterexample: with `batch_size = 0` the read loop consumes nothing,
so `read_batch` returns `None` even though the journal has a record available
— refuting "returns `None` exactly when zero records were available" as a
statement about *every* configured batch size. -/
theorem read_batch_none_with_backlog_cex :
    (read_batch 0 j0).1 = none ∧ j0.records.length - j0.pos ≠ 0 := by
  refine ⟨rfl, by decide⟩

/-- C2 (amended: for batch sizes ≥ 1): `read_batch` with `batch_size = N` on a
journal with `M` available records consumes and returns exactly `min N M`
records (the next `min N M` records of the journal), advances the read
position by exactly the number of consumed records, and returns `none`
exactly when zero records were available. -/
theorem read_batch_consumes_min (batch_size : Nat) (j : Journal)
    (h : 1 ≤ batch_size) :
    (match (read_batch batch_size j).1 with
      | none => 0
      | some b => b.logs.length) = min batch_size (j.records.length - j.pos) ∧
    (read_batch batch_size j).2.pos =
      j.pos + min batch_size (j.records.length - j.pos) ∧
    ((read_batch batch_size j).1 = none ↔ j.records.length - j.pos = 0) ∧
    ∀ b, (read_batch batch_size j).1 = some b →
      b.logs = (j.records.drop j.pos).take batch_size := by
  rw [read_batch_eq]
  by_cases h0 : min batch_size (j.records.length - j.pos) = 0
  · have hM : j.records.length - j.pos = 0 := by omega
    simp [h0, hM]
  · have hM : j.records.length - j.pos ≠ 0 := by omega
    simp [h0, hM, List.length_take, List.length_drop]

/-- Evaluation witness for `read_batch_consumes_min` at `batch_size = 2` on
the three-record journal `j0`. -/
theorem read_batch_consumes_min_witness :
    1 ≤ (2 : Nat) ∧
    ((match (read_batch 2 j0).1 with
       | none => 0
       | some b => b.logs.length) = min 2 (j0.records.length - j0.pos) ∧
     (read_batch 2 j0).2.pos = j0.pos + min 2 (j0.records.length - j0.pos) ∧
     ((read_batch 2 j0).1 = none ↔ j0.records.length - j0.pos = 0) ∧
     ∀ b, (read_batch 2 j0).1 = some b →
       b.logs = (j0.records.drop j0.pos).take 2) :=
  ⟨by decide, read_batch_consumes_min 2 j0 (by decide)⟩

/-- C3: on startup, a missing or empty cursor file positions the journal at
the earliest retained record (`Head`, position 0); any non-empty cursor file
yields a seek to `Cursor` whose token is the file's entire contents, taken
verbatim (no validation or partial parsing), and the journal is positioned at
that cursor. -/
theorem startup_seek_spec (records : List JournalRecord) :
    (init_journal records none).pos = 0 ∧
    (init_journal records (some "")).pos = 0 ∧
    ∀ s : String, s ≠ "" →
      journal_seek_target (some s) = JournalSeek.Cursor s ∧
      (init_journal records (some s)).pos = decodeCursor s := by
  refine ⟨rfl, rfl, ?_⟩
  intro s hs
  have hlen : ¬ s.length = 0 := by
    intro h0
    apply hs
    cases s with
    | mk data =>
      cases data with
      | nil => rfl
      | cons c cs => simp [String.length] at h0
  exact ⟨by simp [journal_seek_target, hlen],
    by simp [init_journal, journal_seek_target, hlen, Journal.seek]⟩

/-- Evaluation witness for `startup_seek_spec` on the non-empty cursor-file
contents `"cc"`. -/
theorem startup_seek_spec_witness :
    ("cc" : String) ≠ "" ∧
    (journal_seek_target (some "cc") = JournalSeek.Cursor "cc" ∧
     (init_journal [recA] (some "cc")).pos = decodeCursor "cc") :=
  ⟨by decide, (startup_seek_spec [recA]).2.2 "cc" (by decide)⟩

/-- C4: `persist_cursor` (`File::create`, which truncates, followed by
`write_all`) leaves the cursor file containing exactly the bytes of the
batch's cursor token, whatever the file held before — a full replacement,
never an append. -/
theorem persist_cursor_full_replacement (fs : CursorFile) (batch : LogBatch) :
    persist_cursor fs batch = some batch.cursor := by
  cases fs <;> rfl

/-- C9: a non-empty batch's cursor is the journal's position immediately
after the last consumed record; a reader resumed from that cursor is
positioned exactly there, and can deliver precisely the records from that
position on — no record strictly before it. -/
theorem batch_cursor_resume (batch_size : Nat) (j : Journal) (b : LogBatch)
    (j' : Journal) (h : read_batch batch_size j = (some b, j')) :
    b.cursor = encodeCursor j'.pos ∧
    j'.pos = j.pos + b.logs.length ∧
    (Journal.seek { records := j.records, pos := 0 }
      (JournalSeek.Cursor b.cursor)).pos = j'.pos ∧
    deliveredFrom (Journal.seek { records := j.records, pos := 0 }
      (JournalSeek.Cursor b.cursor)) = j.records.drop j'.pos := by
  rw [read_batch_eq] at h
  by_cases h0 : min batch_size (j.records.length - j.pos) = 0
  · simp [h0] at h
  · simp [h0] at h
    obtain ⟨hb, hj'⟩ := h
    subst hb
    subst hj'
    refine ⟨rfl, ?_, ?_, ?_⟩
    · simp [List.length_take, List.length_drop]
    · simp [Journal.seek, decodeCursor_encodeCursor]
    · simp [deliveredFrom, Journal.seek, decodeCursor_encodeCursor]

/-- Evaluation witness for `batch_cursor_resume`: reading two records from
`j0` yields `batch0`, whose cursor resumes at position 2. -/
theorem batch_cursor_resume_witness :
    read_batch 2 j0 = (some batch0, { records := j0.records, pos := 2 }) ∧
    (batch0.cursor = encodeCursor ({ records := j0.records, pos := 2 } : Journal).pos ∧
     ({ records := j0.records, pos := 2 } : Journal).pos = j0.pos + batch0.logs.length ∧
     (Journal.seek { records := j0.records, pos := 0 }
       (JournalSeek.Cursor batch0.cursor)).pos =
       ({ records := j0.records, pos := 2 } : Journal).pos ∧
     deliveredFrom (Journal.seek { records := j0.records, pos := 0 }
       (JournalSeek.Cursor batch0.cursor)) =
       j0.records.drop ({ records := j0.records, pos := 2 } : Journal).pos) :=
  ⟨by decide,
    batch_cursor_resume 2 j0 batch0 { records := j0.records, pos := 2 } (by decide)⟩

/-! ## Claims about stream resolution at startup -/

/-- C6: at startup `create_or_find_log_stream` queries the destination with
the configured group name and the configured stream name (as the describe
call's name filter); when the response lists a stream, the first listed
stream's upload sequence token is adopted (no create call); when the response
lists none, the stream is created with the configured names and the initial
token is absent.  `init_runtime` installs the result as the initial held
token, before any upload. -/
theorem stream_resolution_spec (config : Config) (resp : Option (List LogStream)) :
    (create_or_find_log_stream resp config).2.head? =
      some (ApiCall.describeLogStreams
        { log_group_name := config.log_group_name
          log_stream_name_prefix := some config.log_stream_name }) ∧
    (∀ first rest, resp = some (first :: rest) →
      (create_or_find_log_stream resp config).1 = first.upload_sequence_token ∧
      ∀ req, ApiCall.createLogStream req ∉ (create_or_find_log_stream resp config).2) ∧
    ((resp = none ∨ resp = some []) →
      (create_or_find_log_stream resp config).1 = none ∧
      ApiCall.createLogStream
        { log_group_name := config.log_group_name
          log_stream_name := config.log_stream_name } ∈
        (create_or_find_log_stream resp config).2) ∧
    (∀ records file, (init_runtime config records file resp).aws_cursor =
      (create_or_find_log_stream resp config).1) := by
  match resp with
  | none => simp [create_or_find_log_stream, init_runtime]
  | some [] => simp [create_or_find_log_stream, init_runtime]
  | some (first :: rest) => simp [create_or_find_log_stream, init_runtime]

/-- Evaluation witness for `stream_resolution_spec`: a response listing one
stream makes its token the initial token, with no create call. -/
theorem stream_resolution_spec_witness :
    (some [stream0] = some (stream0 :: ([] : List LogStream))) ∧
    ((create_or_find_log_stream (some [stream0]) cfg0).1 =
       stream0.upload_sequence_token ∧
     ∀ req, ApiCall.createLogStream req ∉
       (create_or_find_log_stream (some [stream0]) cfg0).2) :=
  ⟨rfl, (stream_resolution_spec cfg0 (some [stream0])).2.1 stream0 [] rfl⟩

/-- C10: whenever the describe response lists at least one stream, the first
listed stream's sequence token is adopted and no create-stream call is made —
with no check that the stream's name exactly matches the configured name (the
listing is only a name-filter match); the create-stream call happens exactly
when the returned list is absent or empty. -/
theorem first_listed_stream_adopted (config : Config) :
    (∀ first rest,
      (create_or_find_log_stream (some (first :: rest)) config).1 =
        first.upload_sequence_token ∧
      ∀ req, ApiCall.createLogStream req ∉
        (create_or_find_log_stream (some (first :: rest)) config).2) ∧
    (∀ resp, (∃ req, ApiCall.createLogStream req ∈
        (create_or_find_log_stream resp config).2) ↔
      (resp = none ∨ resp = some [])) := by
  constructor
  · intro first rest
    simp [create_or_find_log_stream]
  · intro resp
    match resp with
    | none => simp [create_or_find_log_stream]
    | some [] => simp [create_or_find_log_stream]
    | some (first :: rest) => simp [create_or_find_log_stream]

/-- Evaluation witness for `first_listed_stream_adopted`: the listed stream
`stream0` is named `"stream-extra"`, a strict extension of the configured
`"stream"`, yet its token is adopted and nothing is created. -/
theorem first_listed_stream_adopted_witness :
    stream0.log_stream_name ≠ cfg0.log_stream_name ∧
    (create_or_find_log_stream (some [stream0]) cfg0).1 =
      stream0.upload_sequence_token ∧
    ¬ ApiCall.createLogStream
        { log_group_name := "group", log_stream_name := "stream" } ∈
      (create_or_find_log_stream (some [stream0]) cfg0).2 :=
  ⟨by decide, ((first_listed_stream_adopted cfg0).1 stream0 []).1,
    ((first_listed_stream_adopted cfg0).1 stream0 []).2 _⟩

/-! ## Lemmas about the shipping-loop trace -/

/-- One unfolding of the loop: an iteration's events take exactly one of five
shapes — read failure; empty read then sleep; upload failure; successful
upload then cursor-write failure; or the full read/upload/write round trip
followed by the rest of the run. -/
theorem run_succ_shape (cfg : Config) (env : Env) (n : Nat) (s : LoopState) :
    (env.readFails s.iter = true ∧
      run cfg env (n + 1) s = [Event.readFailEv s.time]) ∨
    (∃ j', env.readFails s.iter = false ∧
      read_batch cfg.batch_size s.journal = (none, j') ∧
      run cfg env (n + 1) s =
        Event.readEv s.time none ::
        Event.sleepEv (s.time + 1) cfg.sleep_time ::
        run cfg env n
          { s with journal := j', iter := s.iter + 1, time := s.time + 2 }) ∨
    (∃ b j', env.readFails s.iter = false ∧
      read_batch cfg.batch_size s.journal = (some b, j') ∧
      env.uploadOutcomes s.nup = UploadOutcome.err ∧
      run cfg env (n + 1) s =
        [Event.readEv s.time (some b),
         Event.uploadEv (s.time + 1)
           (buildPutRequest cfg s.aws_cursor (env.clock (s.time + 1)) b) b
           UploadOutcome.err]) ∨
    (∃ b j' tk, env.readFails s.iter = false ∧
      read_batch cfg.batch_size s.journal = (some b, j') ∧
      env.uploadOutcomes s.nup = UploadOutcome.ok tk ∧
      env.writeFails s.nwr = true ∧
      run cfg env (n + 1) s =
        [Event.readEv s.time (some b),
         Event.uploadEv (s.time + 1)
           (buildPutRequest cfg s.aws_cursor (env.clock (s.time + 1)) b) b
           (UploadOutcome.ok tk),
         Event.writeFailEv (s.time + 2)]) ∨
    (∃ b j' tk, env.readFails s.iter = false ∧
      read_batch cfg.batch_size s.journal = (some b, j') ∧
      env.uploadOutcomes s.nup = UploadOutcome.ok tk ∧
      env.writeFails s.nwr = false ∧
      run cfg env (n + 1) s =
        Event.readEv s.time (some b) ::
        Event.uploadEv (s.time + 1)
          (buildPutRequest cfg s.aws_cursor (env.clock (s.time + 1)) b) b
          (UploadOutcome.ok tk) ::
        Event.writeEv (s.time + 2) b.cursor ::
        run cfg env n
          { journal := j'
            aws_cursor := tk
            cursorFile := persist_cursor s.cursorFile b
            iter := s.iter + 1
            nup := s.nup + 1
            nwr := s.nwr + 1
            time := s.time + 3 }) := by
  cases hf : env.readFails s.iter with
  | true =>
    left
    exact ⟨rfl, by simp [run, hf]⟩
  | false =>
    cases hb : read_batch cfg.batch_size s.journal with
    | mk ob j' =>
      cases ob with
      | none =>
        right; left
        exact ⟨j', rfl, rfl, by simp [run, hf, hb]⟩
      | some b =>
        cases ho : env.uploadOutcomes s.nup with
        | err =>
          right; right; left
          exact ⟨b, j', rfl, rfl, rfl, by simp [run, hf, hb, ho]⟩
        | ok tk =>
          cases hw : env.writeFails s.nwr with
          | true =>
            right; right; right; left
            exact ⟨b, j', tk, rfl, rfl, rfl, rfl, by simp [run, hf, hb, ho, hw]⟩
          | false =>
            right; right; right; right
            exact ⟨b, j', tk, rfl, rfl, rfl, rfl, by simp [run, hf, hb, ho, hw]⟩

/-- Every run trace is empty or starts with a journal read. -/
theorem run_startsWithRead (cfg : Config) (env : Env) (n : Nat) (s : LoopState) :
    startsWithRead (run cfg env n s) := by
  cases n with
  | zero => simp [run, startsWithRead]
  | succ n =>
    rcases run_succ_shape cfg env n s with
      ⟨_, hr⟩ | ⟨j', _, _, hr⟩ | ⟨b, j', _, _, _, hr⟩ |
      ⟨b, j', tk, _, _, _, _, hr⟩ | ⟨b, j', tk, _, _, _, _, hr⟩ <;>
      rw [hr] <;> trivial

/-- A trace starting with a read has no cursor write at position 0. -/
theorem startsWithRead_ne_write {l : List Event} (hl : startsWithRead l)
    {t : Nat} {c : String} : l.get? 0 ≠ some (Event.writeEv t c) := by
  intro h
  cases l with
  | nil => simp at h
  | cons e rest =>
    simp at h
    rw [h] at hl
    simp [startsWithRead] at hl

/-- A trace starting with a read has no upload at position 0. -/
theorem startsWithRead_ne_upload {l : List Event} (hl : startsWithRead l)
    {t : Nat} {req : PutLogEventsRequest} {b : LogBatch} {out : UploadOutcome} :
    l.get? 0 ≠ some (Event.uploadEv t req b out) := by
  intro h
  cases l with
  | nil => simp at h
  | cons e rest =>
    simp at h
    rw [h] at hl
    simp [startsWithRead] at hl

/-! ## Claims about the shipping loop -/

/-- C1: in every run of the shipping loop, a cursor write is always the
event immediately following a *successful* upload, and the token written is
exactly that batch's cursor — so the cursor for a batch is persisted strictly
after, and only after, the batch's upload returned successfully, and an
iteration whose read returned no batch performs no cursor write. -/
theorem cursor_write_only_after_upload (cfg : Config) (env : Env) (n : Nat)
    (s : LoopState) (i t : Nat) (c : String)
    (h : (run cfg env n s).get? i = some (Event.writeEv t c)) :
    ∃ t' req b tk,
      (run cfg env n s).get? (i - 1) =
        some (Event.uploadEv t' req b (UploadOutcome.ok tk)) ∧ c = b.cursor := by
  induction n generalizing s i with
  | zero => simp [run] at h
  | succ n ih =>
    rcases run_succ_shape cfg env n s with
      ⟨_, hr⟩ | ⟨j', _, _, hr⟩ | ⟨b, j', _, _, _, hr⟩ |
      ⟨b, j', tk, _, _, _, _, hr⟩ | ⟨b, j', tk, _, _, _, _, hr⟩
    · rw [hr] at h
      cases i with
      | zero => simp at h
      | succ i => simp at h
    · rw [hr] at h ⊢
      cases i with
      | zero => simp at h
      | succ i =>
        cases i with
        | zero => simp at h
        | succ k =>
          simp only [List.get?_cons_succ] at h
          cases k with
          | zero =>
            exact absurd h (startsWithRead_ne_write (run_startsWithRead cfg env n _))
          | succ m =>
            obtain ⟨t', req, b', tk', hup, hc⟩ := ih _ _ h
            refine ⟨t', req, b', tk', ?_, hc⟩
            simpa using hup
    · rw [hr] at h
      cases i with
      | zero => simp at h
      | succ i =>
        cases i with
        | zero => simp at h
        | succ k => simp at h
    · rw [hr] at h
      cases i with
      | zero => simp at h
      | succ i =>
        cases i with
        | zero => simp at h
        | succ k =>
          cases k with
          | zero => simp at h
          | succ m => simp at h
    · rw [hr] at h ⊢
      cases i with
      | zero => simp at h
      | succ i =>
        cases i with
        | zero => simp at h
        | succ k =>
          cases k with
          | zero =>
            simp only [List.get?_cons_succ, List.get?_cons_zero,
              Option.some.injEq] at h
            refine ⟨s.time + 1,
              buildPutRequest cfg s.aws_cursor (env.clock (s.time + 1)) b, b, tk,
              rfl, ?_⟩
            cases h
            rfl
          | succ m =>
            simp only [List.get?_cons_succ] at h
            cases m with
            | zero =>
              exact absurd h (startsWithRead_ne_write (run_startsWithRead cfg env n _))
            | succ m' =>
              obtain ⟨t', req, b', tk', hup, hc⟩ := ih _ _ h
              refine ⟨t', req, b', tk', ?_, hc⟩
              simpa using hup

/-- Evaluation witness for `cursor_write_only_after_upload`: one successful
iteration over `j0` writes the cursor at trace position 2, right after the
successful upload at position 1. -/
theorem cursor_write_only_after_upload_witness :
    (run cfg0 env0 1 st0).get? 2 = some (Event.writeEv 2 (encodeCursor 2)) ∧
    ∃ t' req b tk,
      (run cfg0 env0 1 st0).get? (2 - 1) =
        some (Event.uploadEv t' req b (UploadOutcome.ok tk)) ∧
      encodeCursor 2 = b.cursor :=
  ⟨by decide, cursor_write_only_after_upload cfg0 env0 1 st0 2 2 (encodeCursor 2)
    (by decide)⟩

/-- C5: across every run, uploads thread the sequence token — the first
upload carries the token held at entry (absent after a fresh start), every
later upload carries exactly the `next_sequence_token` returned by the
immediately preceding successful upload, and the held token is replaced by
each upload's response token. -/
theorem sequence_token_threading (cfg : Config) (env : Env) (n : Nat)
    (s : LoopState) :
    tokenChain s.aws_cursor (uploadsOf (run cfg env n s)) := by
  induction n generalizing s with
  | zero => simp [run, uploadsOf, tokenChain]
  | succ n ih =>
    rcases run_succ_shape cfg env n s with
      ⟨_, hr⟩ | ⟨j', _, _, hr⟩ | ⟨b, j', _, _, _, hr⟩ |
      ⟨b, j', tk, _, _, _, _, hr⟩ | ⟨b, j', tk, _, _, _, _, hr⟩ <;> rw [hr]
    · simp [uploadsOf, tokenChain]
    · simpa [uploadsOf] using
        ih { s with journal := j', iter := s.iter + 1, time := s.time + 2 }
    · simp [uploadsOf, tokenChain, buildPutRequest]
    · simp [uploadsOf, tokenChain, buildPutRequest]
    · exact ⟨rfl, ih
        { journal := j'
          aws_cursor := tk
          cursorFile := persist_cursor s.cursorFile b
          iter := s.iter + 1
          nup := s.nup + 1
          nwr := s.nwr + 1
          time := s.time + 3 }⟩

/-- C7: any failing external call in a steady-state iteration (journal read,
upload, or cursor-file write) is the last event of the run: the process
terminates immediately, with no retry and no further read, upload, cursor
write, or sleep. -/
theorem failure_stops_loop (cfg : Config) (env : Env) (n : Nat) (s : LoopState)
    (i : Nat) (e : Event) (h : (run cfg env n s).get? i = some e)
    (hf : e.isFailure = true) :
    (run cfg env n s).get? (i + 1) = none := by
  induction n generalizing s i with
  | zero => simp [run] at h
  | succ n ih =>
    rcases run_succ_shape cfg env n s with
      ⟨_, hr⟩ | ⟨j', _, _, hr⟩ | ⟨b, j', _, _, _, hr⟩ |
      ⟨b, j', tk, _, _, _, _, hr⟩ | ⟨b, j', tk, _, _, _, _, hr⟩ <;> rw [hr] at h ⊢
    · cases i with
      | zero => rfl
      | succ i => simp at h
    · cases i with
      | zero =>
        simp only [List.get?_cons_zero, Option.some.injEq] at h
        subst h
        simp [Event.isFailure] at hf
      | succ i =>
        cases i with
        | zero =>
          simp only [List.get?_cons_succ, List.get?_cons_zero,
            Option.some.injEq] at h
          subst h
          simp [Event.isFailure] at hf
        | succ k =>
          simp only [List.get?_cons_succ] at h ⊢
          exact ih _ _ h
    · cases i with
      | zero =>
        simp only [List.get?_cons_zero, Option.some.injEq] at h
        subst h
        simp [Event.isFailure] at hf
      | succ i =>
        cases i with
        | zero => rfl
        | succ k => simp at h
    · cases i with
      | zero =>
        simp only [List.get?_cons_zero, Option.some.injEq] at h
        subst h
        simp [Event.isFailure] at hf
      | succ i =>
        cases i with
        | zero =>
          simp only [List.get?_cons_succ, List.get?_cons_zero,
            Option.some.injEq] at h
          subst h
          simp [Event.isFailure] at hf
        | succ k =>
          cases k with
          | zero => rfl
          | succ m => simp at h
    · cases i with
      | zero =>
        simp only [List.get?_cons_zero, Option.some.injEq] at h
        subst h
        simp [Event.isFailure] at hf
      | succ i =>
        cases i with
        | zero =>
          simp only [List.get?_cons_succ, List.get?_cons_zero,
            Option.some.injEq] at h
          subst h
          simp [Event.isFailure] at hf
        | succ k =>
          cases k with
          | zero =>
            simp only [List.get?_cons_succ, List.get?_cons_zero,
              Option.some.injEq] at h
            subst h
            simp [Event.isFailure] at hf
          | succ m =>
            simp only [List.get?_cons_succ] at h ⊢
            exact ih _ _ h

/-- Evaluation witness for `failure_stops_loop`: when the first upload fails,
the trace ends at that upload — position 2 is empty. -/
theorem failure_stops_loop_witness :
    (run cfg0 envUpFail 3 st0).get? 1 =
      some (Event.uploadEv 1
        (buildPutRequest cfg0 none (Int.ofNat 1) batch0) batch0
        UploadOutcome.err) ∧
    (Event.uploadEv 1 (buildPutRequest cfg0 none (Int.ofNat 1) batch0) batch0
        UploadOutcome.err).isFailure = true ∧
    (run cfg0 envUpFail 3 st0).get? (1 + 1) = none :=
  ⟨by decide, by decide,
    failure_stops_loop cfg0 envUpFail 3 st0 1
      (Event.uploadEv 1 (buildPutRequest cfg0 none (Int.ofNat 1) batch0) batch0
        UploadOutcome.err)
      (by decide) (by decide)⟩

/-- C8: every upload event's request serializes each record of its batch to
the record's JSON serialization as the message string, stamps every record
with the wall-clock milliseconds read at the upload's tick (strictly after
the tick at which the batch was read from the journal), and carries the whole
batch in that single request. -/
theorem upload_payload_spec (cfg : Config) (env : Env) (n : Nat)
    (s : LoopState) (i t : Nat) (req : PutLogEventsRequest) (b : LogBatch)
    (out : UploadOutcome)
    (h : (run cfg env n s).get? i = some (Event.uploadEv t req b out)) :
    req.log_events = b.logs.map (fun r =>
      { message := json_to_string r, timestamp := env.clock t }) ∧
    ∃ t', (run cfg env n s).get? (i - 1) =
      some (Event.readEv t' (some b)) ∧ t' < t := by
  induction n generalizing s i with
  | zero => simp [run] at h
  | succ n ih =>
    rcases run_succ_shape cfg env n s with
      ⟨_, hr⟩ | ⟨j', _, _, hr⟩ | ⟨b', j', _, _, _, hr⟩ |
      ⟨b', j', tk, _, _, _, _, hr⟩ | ⟨b', j', tk, _, _, _, _, hr⟩ <;>
      rw [hr] at h ⊢
    · cases i with
      | zero => simp at h
      | succ i => simp at h
    · cases i with
      | zero => simp at h
      | succ i =>
        cases i with
        | zero => simp at h
        | succ k =>
          simp only [List.get?_cons_succ] at h
          cases k with
          | zero =>
            exact absurd h (startsWithRead_ne_upload (run_startsWithRead cfg env n _))
          | succ m =>
            obtain ⟨hev, t', hread, hlt⟩ := ih _ _ h
            exact ⟨hev, t', by simpa using hread, hlt⟩
    · cases i with
      | zero => simp at h
      | succ i =>
        cases i with
        | zero =>
          simp only [List.get?_cons_succ, List.get?_cons_zero,
            Option.some.injEq, Event.uploadEv.injEq] at h
          obtain ⟨ht, hreq, hb, _⟩ := h
          subst ht
          subst hreq
          subst hb
          exact ⟨rfl, s.time, rfl, by omega⟩
        | succ k => simp at h
    · cases i with
      | zero => simp at h
      | succ i =>
        cases i with
        | zero =>
          simp only [List.get?_cons_succ, List.get?_cons_zero,
            Option.some.injEq, Event.uploadEv.injEq] at h
          obtain ⟨ht, hreq, hb, _⟩ := h
          subst ht
          subst hreq
          subst hb
          exact ⟨rfl, s.time, rfl, by omega⟩
        | succ k =>
          cases k with
          | zero => simp at h
          | succ m => simp at h
    · cases i with
      | zero => simp at h
      | succ i =>
        cases i with
        | zero =>
          simp only [List.get?_cons_succ, List.get?_cons_zero,
            Option.some.injEq, Event.uploadEv.injEq] at h
          obtain ⟨ht, hreq, hb, _⟩ := h
          subst ht
          subst hreq
          subst hb
          exact ⟨rfl, s.time, rfl, by omega⟩
        | succ k =>
          cases k with
          | zero => simp at h
          | succ m =>
            simp only [List.get?_cons_succ] at h
            cases m with
            | zero =>
              exact absurd h (startsWithRead_ne_upload (run_startsWithRead cfg env n _))
            | succ m' =>
              obtain ⟨hev, t', hread, hlt⟩ := ih _ _ h
              exact ⟨hev, t', by simpa using hread, hlt⟩

/-- Evaluation witness for `upload_payload_spec`: the first upload over `j0`
carries both records of `batch0` as JSON with the tick-1 clock, right after
the read at tick 0. -/
theorem upload_payload_spec_witness :
    (run cfg0 env0 1 st0).get? 1 =
      some (Event.uploadEv 1 (buildPutRequest cfg0 none (Int.ofNat 1) batch0)
        batch0 (UploadOutcome.ok (some "tok1"))) ∧
    ((buildPutRequest cfg0 none (Int.ofNat 1) batch0).log_events =
      batch0.logs.map (fun r =>
        { message := json_to_string r, timestamp := env0.clock 1 }) ∧
     ∃ t', (run cfg0 env0 1 st0).get? (1 - 1) =
       some (Event.readEv t' (some batch0)) ∧ t' < 1) :=
  ⟨by decide, upload_payload_spec cfg0 env0 1 st0 1 1
    (buildPutRequest cfg0 none (Int.ofNat 1) batch0) batch0
    (UploadOutcome.ok (some "tok1")) (by decide)⟩

end Journalcloud
